import Mathlib

/-!
Shallow embedding of the blog controller (controllers/Blog.js) and the Blog
schema (models/Blog.js) of the tour_travels_be repository, together with
proofs of the specified properties.

Strings are modelled as `List Char`; timestamps (`Date.now()`, `new Date()`)
as `Nat` milliseconds; the database as a `List BlogPost`.  External
collaborators (Cloudinary upload/delete, the Category collection) are
parameters of the handler functions.
-/

namespace TourTravels

/-- Character class of the regex `[a-z0-9]` (lowercase ASCII letters and digits). -/
def isAlnumLower (c : Char) : Bool :=
  (97 ≤ c.toNat && c.toNat ≤ 122) || (48 ≤ c.toNat && c.toNat ≤ 57)

/-- ASCII decimal digit. -/
def isDigitChar (c : Char) : Bool :=
  48 ≤ c.toNat && c.toNat ≤ 57

/-- Characters removed by JavaScript `String.prototype.trim` (whitespace and
line terminators; the common code points). -/
def isJsSpace (c : Char) : Bool :=
  c.toNat = 32 || c.toNat = 9 || c.toNat = 10 || c.toNat = 13 || c.toNat = 11 ||
  c.toNat = 12 || c.toNat = 160 || c.toNat = 65279 || c.toNat = 8232 || c.toNat = 8233

/-- Model of trim: drop whitespace from both ends. -/
def trimChars (l : List Char) : List Char :=
  ((l.dropWhile isJsSpace).reverse.dropWhile isJsSpace).reverse

/-- Model of the replace step that turns every maximal run of characters
outside the class a-z0-9 into a single hyphen.  The flag records whether the
previous character was part of such a run. -/
def squashNonAlnum : List Char → Bool → List Char
  | [], _ => []
  | c :: cs, inRun =>
    if isAlnumLower c then c :: squashNonAlnum cs false
    else if inRun then squashNonAlnum cs true
    else '-' :: squashNonAlnum cs true

/-- Model of the replace step that strips leading and trailing hyphens. -/
def stripHyphens (l : List Char) : List Char :=
  ((l.dropWhile (fun c => c == '-')).reverse.dropWhile (fun c => c == '-')).reverse

/-- Model of the replace step that collapses every run of two or more hyphens
to a single hyphen.  The flag records whether the previous kept character was
a hyphen. -/
def collapseHyphens : List Char → Bool → List Char
  | [], _ => []
  | c :: cs, prevHyphen =>
    if c == '-' then
      if prevHyphen then collapseHyphens cs true
      else '-' :: collapseHyphens cs true
    else c :: collapseHyphens cs false

/-- The decimal digit characters, used to render `Date.now()`. -/
def digitChar : Nat → Char
  | 0 => '0' | 1 => '1' | 2 => '2' | 3 => '3' | 4 => '4'
  | 5 => '5' | 6 => '6' | 7 => '7' | 8 => '8' | _ => '9'

/-- Accumulator loop producing the decimal digits of a number; the first
argument is fuel bounding the number of division steps. -/
def natDigitsAux : Nat → Nat → List Char → List Char
  | 0, _, acc => acc
  | fuel + 1, n, acc =>
    if n = 0 then acc else natDigitsAux fuel (n / 10) (digitChar (n % 10) :: acc)

/-- JavaScript rendering of a natural number in a template literal. -/
def natToString (n : Nat) : List Char :=
  if n = 0 then ['0'] else natDigitsAux n n []

/-- Value of the fallback template literal: the text blog- followed by the
decimal rendering of the current timestamp. -/
def slugFallback (now : Nat) : List Char :=
  'b' :: 'l' :: 'o' :: 'g' :: '-' :: natToString now

/-- The trim/lowercase/replace/strip/collapse pipeline of `createSlug`
(before the empty-string fallback). -/
def slugPipeline (value : List Char) : List Char :=
  collapseHyphens
    (stripHyphens (squashNonAlnum ((trimChars value).map Char.toLower) false)) false

/-- Function createSlug from controllers/Blog.js; now is the current timestamp. -/
def createSlug (value : List Char) (now : Nat) : List Char :=
  let normalized := slugPipeline value
  if normalized.isEmpty then slugFallback now else normalized

/-- Characters allowed in a well-formed slug: `[a-z0-9-]`. -/
def goodSlugChar (c : Char) : Bool :=
  isAlnumLower c || c == '-'

/-- Holds iff the list has no two adjacent hyphens. -/
def noDoubleHyphen : List Char → Bool
  | [] => true
  | [_] => true
  | a :: b :: rest => (!(a == '-' && b == '-')) && noDoubleHyphen (b :: rest)

/-! ### Character-class lemmas -/

theorem alnum_not_hyphen {c : Char} (h : isAlnumLower c = true) : (c == '-') = false := by
  rcases Bool.eq_false_or_eq_true (c == '-') with h' | h'
  · exfalso
    have hc : c = '-' := by simpa using h'
    subst hc
    exact absurd h (by decide)
  · exact h' 

theorem good_char_cases {c : Char} (h : goodSlugChar c = true) :
    isAlnumLower c = true ∨ c = '-' := by
  simpa [goodSlugChar] using h

theorem digit_good {c : Char} (h : isDigitChar c = true) : goodSlugChar c = true := by
  simp only [isDigitChar, Bool.and_eq_true, decide_eq_true_eq] at h
  simp only [goodSlugChar, isAlnumLower, Bool.or_eq_true, Bool.and_eq_true, decide_eq_true_eq]
  omega

theorem digit_not_hyphen {c : Char} (h : isDigitChar c = true) : (c == '-') = false := by
  rcases good_char_cases (digit_good h) with h' | h'
  · exact alnum_not_hyphen h'
  · subst h'; exact absurd h (by decide)

/-! ### Lemmas about the pipeline steps -/

theorem all_of_sublist {p : Char → Bool} {l₁ l₂ : List Char} (hs : List.Sublist l₁ l₂)
    (h : l₂.all p = true) : l₁.all p = true := by
  simp only [List.all_eq_true] at h ⊢
  exact fun x hx => h x (hs.subset hx)

theorem squash_all_good : ∀ (l : List Char) (b : Bool),
    (squashNonAlnum l b).all goodSlugChar = true := by
  intro l
  induction l with
  | nil => intro b; rfl
  | cons c cs ih =>
    intro b
    simp only [squashNonAlnum]
    by_cases h : isAlnumLower c = true
    · simp [h, ih, goodSlugChar]
    · simp only [h, if_false]
      cases b
      · simp [ih, goodSlugChar]
      · simp [ih]

theorem stripHyphens_all {p : Char → Bool} {l : List Char} (h : l.all p = true) :
    (stripHyphens l).all p = true := by
  unfold stripHyphens
  rw [List.all_reverse]
  refine all_of_sublist (List.dropWhile_sublist _) ?_
  rw [List.all_reverse]
  exact all_of_sublist (List.dropWhile_sublist _) h

theorem collapse_all_good : ∀ (l : List Char) (b : Bool), l.all goodSlugChar = true →
    (collapseHyphens l b).all goodSlugChar = true := by
  intro l
  induction l with
  | nil => intro b _; rfl
  | cons c cs ih =>
    intro b h
    rw [List.all_cons, Bool.and_eq_true] at h
    by_cases hc : (c == '-') = true
    · cases b <;>
        simp [collapseHyphens, hc, ih true h.2, (by decide : goodSlugChar '-' = true)]
    · cases b <;> simp [collapseHyphens, hc, ih false h.2, h.1]

theorem head?_dropWhile_not (p : Char → Bool) : ∀ (l : List Char) {c : Char},
    (l.dropWhile p).head? = some c → p c = false := by
  intro l
  induction l with
  | nil => intro c h; simp [List.dropWhile] at h
  | cons a as ih =>
    intro c h
    rw [List.dropWhile_cons] at h
    by_cases hp : p a = true
    · rw [if_pos hp] at h
      exact ih h
    · rw [if_neg hp] at h
      have ha : a = c := by simpa using h
      subst ha
      simpa using hp

theorem getLast?_of_suffix {l₁ l₂ : List Char} (h : l₁ <:+ l₂) {c : Char}
    (hc : l₁.getLast? = some c) : l₂.getLast? = some c := by
  obtain ⟨t, rfl⟩ := h
  rw [List.getLast?_append, hc]
  rfl

theorem stripHyphens_getLast? {l : List Char} {c : Char}
    (h : (stripHyphens l).getLast? = some c) : (c == '-') = false := by
  unfold stripHyphens at h
  rw [List.getLast?_reverse] at h
  exact head?_dropWhile_not (fun c => c == '-') _ h

theorem stripHyphens_head? {l : List Char} {c : Char}
    (h : (stripHyphens l).head? = some c) : (c == '-') = false := by
  unfold stripHyphens at h
  rw [List.head?_reverse] at h
  have h2 : ((l.dropWhile (fun c => c == '-')).reverse).getLast? = some c :=
    getLast?_of_suffix (List.dropWhile_suffix _) h
  rw [List.getLast?_reverse] at h2
  exact head?_dropWhile_not (fun c => c == '-') _ h2

theorem getLast?_cons_of_ne_nil {a : Char} {l : List Char} (h : l ≠ []) :
    (a :: l).getLast? = l.getLast? := by
  cases l with
  | nil => exact absurd rfl h
  | cons b bs => exact List.getLast?_cons_cons

theorem collapse_cons_hyphen_true {a : Char} {cs : List Char} (h : (a == '-') = true) :
    collapseHyphens (a :: cs) true = collapseHyphens cs true := by
  simp [collapseHyphens, h]

theorem collapse_cons_hyphen_false {a : Char} {cs : List Char} (h : (a == '-') = true) :
    collapseHyphens (a :: cs) false = '-' :: collapseHyphens cs true := by
  simp [collapseHyphens, h]

theorem collapse_cons_nonhyphen {a : Char} {cs : List Char} (h : (a == '-') = false) (b : Bool) :
    collapseHyphens (a :: cs) b = a :: collapseHyphens cs false := by
  simp [collapseHyphens, h]

theorem collapse_head_true : ∀ (l : List Char) {c : Char},
    (collapseHyphens l true).head? = some c → (c == '-') = false := by
  intro l
  induction l with
  | nil => intro c h; simp [collapseHyphens] at h
  | cons a as ih =>
    intro c h
    by_cases ha : (a == '-') = true
    · simp only [collapseHyphens, ha, if_true] at h
      exact ih h
    · simp only [collapseHyphens, ha, Bool.false_eq_true, if_false, List.head?_cons,
        Option.some.injEq] at h
      subst h
      simpa using ha

theorem collapse_head_false : ∀ (l : List Char) {c : Char},
    (∀ d, l.head? = some d → (d == '-') = false) →
    (collapseHyphens l false).head? = some c → (c == '-') = false := by
  intro l
  cases l with
  | nil => intro c _ h; simp [collapseHyphens] at h
  | cons a as =>
    intro c hhead h
    have ha := hhead a rfl
    simp only [collapseHyphens, ha, Bool.false_eq_true, if_false, List.head?_cons,
      Option.some.injEq] at h
    subst h
    exact ha

theorem collapse_ne_nil : ∀ (l : List Char) (b : Bool) {c : Char},
    l.getLast? = some c → (c == '-') = false → collapseHyphens l b ≠ [] := by
  intro l
  induction l with
  | nil => intro b c h _; simp at h
  | cons a as ih =>
    intro b c hlast hc
    cases as with
    | nil =>
      simp only [List.getLast?_singleton, Option.some.injEq] at hlast
      subst hlast
      simp only [collapseHyphens, hc, Bool.false_eq_true, if_false]
      exact List.cons_ne_nil _ _
    | cons y ys =>
      rw [List.getLast?_cons_cons] at hlast
      by_cases ha : (a == '-') = true
      · cases b
        · simp only [collapseHyphens, ha, if_true, Bool.false_eq_true, if_false]
          exact List.cons_ne_nil _ _
        · simp only [collapseHyphens, ha, if_true]
          exact ih true hlast hc
      · simp only [collapseHyphens, ha, Bool.false_eq_true, if_false]
        exact List.cons_ne_nil _ _

theorem collapse_getLast? : ∀ (l : List Char) (b : Bool) {c : Char},
    l.getLast? = some c → (c == '-') = false →
    (collapseHyphens l b).getLast? = some c := by
  intro l
  induction l with
  | nil => intro b c h _; simp at h
  | cons a as ih =>
    intro b c hlast hc
    cases as with
    | nil =>
      simp only [List.getLast?_singleton, Option.some.injEq] at hlast
      subst hlast
      simp only [collapseHyphens, hc, Bool.false_eq_true, if_false]
      rfl
    | cons y ys =>
      rw [List.getLast?_cons_cons] at hlast
      have hne : collapseHyphens (y :: ys) true ≠ [] := collapse_ne_nil _ true hlast hc
      have hne' : collapseHyphens (y :: ys) false ≠ [] := collapse_ne_nil _ false hlast hc
      by_cases ha : (a == '-') = true
      · cases b
        · rw [collapse_cons_hyphen_false ha, getLast?_cons_of_ne_nil hne]
          exact ih true hlast hc
        · rw [collapse_cons_hyphen_true ha]
          exact ih true hlast hc
      · have ha' : (a == '-') = false := by simpa using ha
        rw [collapse_cons_nonhyphen ha' b, getLast?_cons_of_ne_nil hne']
        exact ih false hlast hc

theorem noDouble_cons {c : Char} {R : List Char}
    (h1 : (c == '-') = false ∨ (∀ d, R.head? = some d → (d == '-') = false))
    (h2 : noDoubleHyphen R = true) : noDoubleHyphen (c :: R) = true := by
  cases R with
  | nil => rfl
  | cons r rs =>
    simp only [noDoubleHyphen, Bool.and_eq_true, Bool.not_eq_true']
    refine ⟨?_, h2⟩
    rcases h1 with h | h
    · simp [h]
    · simp [h r rfl]

theorem collapse_noDouble : ∀ (l : List Char) (b : Bool),
    noDoubleHyphen (collapseHyphens l b) = true := by
  intro l
  induction l with
  | nil => intro b; rfl
  | cons a as ih =>
    intro b
    by_cases ha : (a == '-') = true
    · cases b
      · simp only [collapseHyphens, ha, if_true, Bool.false_eq_true, if_false]
        refine noDouble_cons (Or.inr ?_) (ih true)
        intro d hd
        exact collapse_head_true as hd
      · simp only [collapseHyphens, ha, if_true]
        exact ih true
    · have ha' : (a == '-') = false := by simpa using ha
      rw [collapse_cons_nonhyphen ha' b]
      exact noDouble_cons (Or.inl ha') (ih false)

/-! ### Lemmas about the timestamp fallback -/

theorem digitChar_isDigit (d : Nat) : isDigitChar (digitChar d) = true := by
  unfold digitChar
  split <;> decide

theorem natDigitsAux_all : ∀ (fuel n : Nat) (acc : List Char),
    acc.all isDigitChar = true → (natDigitsAux fuel n acc).all isDigitChar = true := by
  intro fuel
  induction fuel with
  | zero => intro n acc h; exact h
  | succ f ih =>
    intro n acc h
    unfold natDigitsAux
    by_cases hn : n = 0
    · simp [hn, h]
    · rw [if_neg hn]
      refine ih _ _ ?_
      rw [List.all_cons, Bool.and_eq_true]
      exact ⟨digitChar_isDigit _, h⟩

theorem natToString_all (n : Nat) : (natToString n).all isDigitChar = true := by
  unfold natToString
  by_cases h : n = 0
  · rw [if_pos h]; decide
  · rw [if_neg h]; exact natDigitsAux_all n n [] rfl

theorem natDigitsAux_ne_nil : ∀ (fuel n : Nat) (acc : List Char),
    acc ≠ [] → natDigitsAux fuel n acc ≠ [] := by
  intro fuel
  induction fuel with
  | zero => intro n acc h; exact h
  | succ f ih =>
    intro n acc h
    unfold natDigitsAux
    by_cases hn : n = 0
    · rw [if_pos hn]; exact h
    · rw [if_neg hn]; exact ih _ _ (List.cons_ne_nil _ _)

theorem natToString_ne_nil (n : Nat) : natToString n ≠ [] := by
  unfold natToString
  by_cases h : n = 0
  · rw [if_pos h]; exact List.cons_ne_nil _ _
  · rw [if_neg h]
    cases n with
    | zero => exact absurd rfl h
    | succ m =>
      show natDigitsAux (m + 1) (m + 1) [] ≠ []
      unfold natDigitsAux
      rw [if_neg h]
      exact natDigitsAux_ne_nil _ _ _ (List.cons_ne_nil _ _)

theorem all_mono {p q : Char → Bool} (h : ∀ c, p c = true → q c = true) {l : List Char}
    (hl : l.all p = true) : l.all q = true := by
  simp only [List.all_eq_true] at hl ⊢
  exact fun x hx => h x (hl x hx)

theorem all_head? {p : Char → Bool} {l : List Char} {c : Char}
    (hl : l.all p = true) (h : l.head? = some c) : p c = true := by
  cases l with
  | nil => simp at h
  | cons a as =>
    simp only [List.head?_cons, Option.some.injEq] at h
    subst h
    rw [List.all_cons, Bool.and_eq_true] at hl
    exact hl.1

theorem all_getLast? {p : Char → Bool} : ∀ {l : List Char} {c : Char},
    l.all p = true → l.getLast? = some c → p c = true := by
  intro l
  induction l with
  | nil => intro c _ h; simp at h
  | cons a as ih =>
    intro c hl h
    rw [List.all_cons, Bool.and_eq_true] at hl
    cases as with
    | nil =>
      simp only [List.getLast?_singleton, Option.some.injEq] at h
      subst h
      exact hl.1
    | cons y ys =>
      rw [List.getLast?_cons_cons] at h
      exact ih hl.2 h

theorem noDouble_of_all_digits : ∀ (l : List Char), l.all isDigitChar = true →
    noDoubleHyphen l = true := by
  intro l
  induction l with
  | nil => intro _; rfl
  | cons c cs ih =>
    intro h
    rw [List.all_cons, Bool.and_eq_true] at h
    refine noDouble_cons (Or.inl (digit_not_hyphen h.1)) (ih h.2)

theorem slugFallback_all_good (now : Nat) : (slugFallback now).all goodSlugChar = true := by
  unfold slugFallback
  simp only [List.all_cons, Bool.and_eq_true]
  refine ⟨by decide, by decide, by decide, by decide, by decide, ?_⟩
  exact all_mono (fun c => digit_good) (natToString_all now)

theorem slugFallback_head (now : Nat) : (slugFallback now).head? = some 'b' := rfl

theorem slugFallback_getLast? (now : Nat) {c : Char}
    (h : (slugFallback now).getLast? = some c) : (c == '-') = false := by
  unfold slugFallback at h
  rw [List.getLast?_cons_cons, List.getLast?_cons_cons, List.getLast?_cons_cons,
    List.getLast?_cons_cons, getLast?_cons_of_ne_nil (natToString_ne_nil now)] at h
  exact digit_not_hyphen (all_getLast? (natToString_all now) h)

theorem slugFallback_noDouble (now : Nat) : noDoubleHyphen (slugFallback now) = true := by
  unfold slugFallback
  have hds := natToString_all now
  have hhd : ∀ d, (natToString now).head? = some d → (d == '-') = false :=
    fun d hd => digit_not_hyphen (all_head? hds hd)
  refine noDouble_cons (Or.inl (by decide)) ?_
  refine noDouble_cons (Or.inl (by decide)) ?_
  refine noDouble_cons (Or.inl (by decide)) ?_
  refine noDouble_cons (Or.inl (by decide)) ?_
  exact noDouble_cons (Or.inr hhd) (noDouble_of_all_digits _ hds)

/-! ### Well-formedness of the slug pipeline -/

theorem slugPipeline_all_good (v : List Char) : (slugPipeline v).all goodSlugChar = true :=
  collapse_all_good _ false (stripHyphens_all (squash_all_good _ false))

theorem slugPipeline_head? (v : List Char) {c : Char}
    (h : (slugPipeline v).head? = some c) : (c == '-') = false := by
  unfold slugPipeline at h
  exact collapse_head_false _ (fun d hd => stripHyphens_head? hd) h

theorem slugPipeline_getLast? (v : List Char) {c : Char}
    (h : (slugPipeline v).getLast? = some c) : (c == '-') = false := by
  unfold slugPipeline at h
  cases hlast : (stripHyphens (squashNonAlnum ((trimChars v).map Char.toLower) false)).getLast?
    with
  | none =>
    rw [List.getLast?_eq_none_iff] at hlast
    rw [hlast] at h
    simp [collapseHyphens] at h
  | some d =>
    have hd := stripHyphens_getLast? hlast
    rw [collapse_getLast? _ false hlast hd] at h
    cases h
    exact hd

theorem slugPipeline_noDouble (v : List Char) : noDoubleHyphen (slugPipeline v) = true :=
  collapse_noDouble _ false

/-- C1: for every text input, createSlug returns a string containing only
lowercase characters from the class a-z0-9 plus hyphen, never starting or
ending with a hyphen, never containing two adjacent hyphens, and never empty;
and when the trim/lowercase/replace/strip pipeline yields the empty string the
result is the timestamp placeholder. -/
theorem C1_createSlug_wellFormed (value : List Char) (now : Nat) :
    (createSlug value now ≠ [] ∧
      (createSlug value now).all goodSlugChar = true ∧
      (createSlug value now).head? ≠ some '-' ∧
      (createSlug value now).getLast? ≠ some '-' ∧
      noDoubleHyphen (createSlug value now) = true) ∧
    (slugPipeline value = [] → createSlug value now = slugFallback now) := by
  simp only [createSlug]
  by_cases hp : (slugPipeline value).isEmpty = true
  · rw [if_pos hp]
    refine ⟨⟨List.cons_ne_nil _ _, slugFallback_all_good now, ?_, ?_,
      slugFallback_noDouble now⟩, fun _ => rfl⟩
    · rw [slugFallback_head]
      decide
    · intro h
      exact absurd (slugFallback_getLast? now h) (by decide)
  · rw [if_neg hp]
    have hne : slugPipeline value ≠ [] := by
      intro he
      exact hp (by rw [he]; rfl)
    refine ⟨⟨hne, slugPipeline_all_good value, ?_, ?_, slugPipeline_noDouble value⟩,
      fun he => absurd (by rw [he]; rfl) hp⟩
    · intro h
      exact absurd (slugPipeline_head? value h) (by decide)
    · intro h
      exact absurd (slugPipeline_getLast? value h) (by decide)

/-! ### Idempotence of the pipeline on well-formed slugs -/

theorem good_not_space {c : Char} (h : goodSlugChar c = true) : isJsSpace c = false := by
  rcases good_char_cases h with h' | h'
  · simp only [isAlnumLower, Bool.or_eq_true, Bool.and_eq_true, decide_eq_true_eq] at h'
    simp only [isJsSpace, Bool.or_eq_false_iff, decide_eq_false_iff_not]
    omega
  · subst h'
    decide

theorem dropWhile_eq_self_of_head {p : Char → Bool} {l : List Char}
    (h : ∀ c, l.head? = some c → p c = false) : l.dropWhile p = l := by
  cases l with
  | nil => rfl
  | cons a as =>
    have := h a rfl
    rw [List.dropWhile_cons]
    simp [this]

theorem dropWhile_eq_self_of_all {p : Char → Bool} {l : List Char}
    (h : ∀ c ∈ l, p c = false) : l.dropWhile p = l := by
  cases l with
  | nil => rfl
  | cons a as => exact dropWhile_eq_self_of_head (fun c hc => by
    have : a = c := by simpa using hc
    subst this
    exact h a (List.mem_cons_self a as))

theorem trimChars_eq_self {l : List Char} (h : l.all goodSlugChar = true) :
    trimChars l = l := by
  unfold trimChars
  rw [List.all_eq_true] at h
  rw [dropWhile_eq_self_of_all (fun c hc => good_not_space (h c hc))]
  rw [dropWhile_eq_self_of_all (fun c hc => good_not_space (h c (List.mem_reverse.mp hc)))]
  exact List.reverse_reverse l

theorem toLower_fix {c : Char} (h : goodSlugChar c = true) : Char.toLower c = c := by
  rcases good_char_cases h with h' | h'
  · simp only [isAlnumLower, Bool.or_eq_true, Bool.and_eq_true, decide_eq_true_eq] at h'
    have hn : ¬(c.toNat ≥ 65 ∧ c.toNat ≤ 90) := by omega
    simp only [Char.toLower]
    rw [if_neg hn]
  · subst h'
    decide

theorem map_toLower_eq_self {l : List Char} (h : l.all goodSlugChar = true) :
    l.map Char.toLower = l := by
  rw [List.all_eq_true] at h
  have h2 : l.map Char.toLower = l.map id :=
    List.map_congr_left (fun a ha => toLower_fix (h a ha))
  simpa using h2

theorem noDouble_tail {c : Char} {cs : List Char} (h : noDoubleHyphen (c :: cs) = true) :
    noDoubleHyphen cs = true := by
  cases cs with
  | nil => rfl
  | cons d ds =>
    simp only [noDoubleHyphen, Bool.and_eq_true] at h
    exact h.2

theorem noDouble_hyphen_head {cs : List Char} (h : noDoubleHyphen ('-' :: cs) = true) :
    ∀ d, cs.head? = some d → (d == '-') = false := by
  intro d hd
  cases cs with
  | nil => simp at hd
  | cons e es =>
    simp only [List.head?_cons, Option.some.injEq] at hd
    subst hd
    simp only [noDoubleHyphen, Bool.and_eq_true, Bool.not_eq_true'] at h
    simpa using h.1

theorem squash_cons_alnum {c : Char} {cs : List Char} (h : isAlnumLower c = true) (b : Bool) :
    squashNonAlnum (c :: cs) b = c :: squashNonAlnum cs false := by
  simp [squashNonAlnum, h]

theorem squash_cons_other_false {c : Char} {cs : List Char} (h : isAlnumLower c = false) :
    squashNonAlnum (c :: cs) false = '-' :: squashNonAlnum cs true := by
  simp [squashNonAlnum, h]

theorem squash_fix : ∀ (l : List Char) (b : Bool),
    l.all goodSlugChar = true → noDoubleHyphen l = true →
    (b = true → ∀ d, l.head? = some d → (d == '-') = false) →
    squashNonAlnum l b = l := by
  intro l
  induction l with
  | nil => intro b _ _ _; rfl
  | cons c cs ih =>
    intro b hall hnd hb
    rw [List.all_cons, Bool.and_eq_true] at hall
    rcases good_char_cases hall.1 with hc | hc
    · rw [squash_cons_alnum hc b]
      rw [ih false hall.2 (noDouble_tail hnd) (fun h => Bool.noConfusion h)]
    · subst hc
      cases b
      · rw [squash_cons_other_false (by decide)]
        rw [ih true hall.2 (noDouble_tail hnd) (fun _ => noDouble_hyphen_head hnd)]
      · exact absurd (hb rfl '-' rfl) (by decide)

theorem strip_fix {l : List Char} (hh : l.head? ≠ some '-') (hl : l.getLast? ≠ some '-') :
    stripHyphens l = l := by
  have conv1 : ∀ (m : List Char), m.head? ≠ some '-' →
      ∀ c, m.head? = some c → ((c == '-') : Bool) = false := by
    intro m hm c hc
    rcases Bool.eq_false_or_eq_true (c == '-') with h' | h'
    · exfalso
      have : c = '-' := by simpa using h'
      subst this
      exact hm hc
    · exact h'
  unfold stripHyphens
  rw [dropWhile_eq_self_of_head (conv1 l hh)]
  rw [dropWhile_eq_self_of_head (fun c hc => conv1 l.reverse (by
    rw [List.head?_reverse]; exact hl) c hc)]
  exact List.reverse_reverse l

theorem collapse_fix : ∀ (l : List Char) (b : Bool),
    noDoubleHyphen l = true →
    (b = true → ∀ d, l.head? = some d → (d == '-') = false) →
    collapseHyphens l b = l := by
  intro l
  induction l with
  | nil => intro b _ _; rfl
  | cons c cs ih =>
    intro b hnd hb
    by_cases hc : (c == '-') = true
    · have hc' : c = '-' := by simpa using hc
      subst hc'
      cases b
      · rw [collapse_cons_hyphen_false hc]
        rw [ih true (noDouble_tail hnd) (fun _ => noDouble_hyphen_head hnd)]
      · exact absurd (hb rfl '-' rfl) (by decide)
    · have hc' : (c == '-') = false := by simpa using hc
      rw [collapse_cons_nonhyphen hc' b]
      rw [ih false (noDouble_tail hnd) (fun h => Bool.noConfusion h)]

theorem slugPipeline_idem {l : List Char}
    (hall : l.all goodSlugChar = true) (hh : l.head? ≠ some '-')
    (hl : l.getLast? ≠ some '-') (hnd : noDoubleHyphen l = true) :
    slugPipeline l = l := by
  unfold slugPipeline
  rw [trimChars_eq_self hall, map_toLower_eq_self hall]
  rw [squash_fix l false hall hnd (fun h => Bool.noConfusion h)]
  rw [strip_fix hh hl]
  rw [collapse_fix l false hnd (fun h => Bool.noConfusion h)]

/-- C9: whenever the normalization pipeline yields a non-empty result (so the
timestamp fallback is not taken), createSlug is idempotent, for any pair of
timestamps. -/
theorem C9_createSlug_idempotent (s : List Char) (now now' : Nat)
    (h : slugPipeline s ≠ []) :
    createSlug (createSlug s now) now' = createSlug s now := by
  have hne : ¬((slugPipeline s).isEmpty = true) := fun he => h (List.isEmpty_iff.mp he)
  have hcs : createSlug s now = slugPipeline s := by
    simp only [createSlug]
    rw [if_neg hne]
  rw [hcs]
  have hidem : slugPipeline (slugPipeline s) = slugPipeline s :=
    slugPipeline_idem (slugPipeline_all_good s)
      (fun hh => absurd (slugPipeline_head? s hh) (by decide))
      (fun hl => absurd (slugPipeline_getLast? s hl) (by decide))
      (slugPipeline_noDouble s)
  simp only [createSlug]
  rw [hidem]
  rw [if_neg hne]

/-- Witness for C9 at a concrete input. -/
theorem C9_witness :
    slugPipeline "Hello, World!".toList ≠ [] ∧
      createSlug (createSlug "Hello, World!".toList 3) 7 =
        createSlug "Hello, World!".toList 3 :=
  ⟨by decide, C9_createSlug_idempotent "Hello, World!".toList 3 7 (by decide)⟩

/-! ### Data model -/

/-- A stored blog document (models/Blog.js).  The id is the string form of the
Mongo ObjectId; category ids are abstracted as naturals; timestamps are
milliseconds. -/
structure BlogPost where
  id : List Char
  title : List Char
  slug : List Char
  content : List Char
  blogImage : List Char
  readTime : Nat
  category : Nat
  metaTitle : List Char
  metaDescription : List Char
  publishedDate : Nat
deriving Repr, DecidableEq

/-- ASCII hexadecimal digit. -/
def isHexChar (c : Char) : Bool :=
  (48 ≤ c.toNat && c.toNat ≤ 57) || (97 ≤ c.toNat && c.toNat ≤ 102) ||
  (65 ≤ c.toNat && c.toNat ≤ 70)

/-- Validity test mongoose applies to an identifier string: a 24-character
hexadecimal string, or any 12-character string. -/
def isValidObjectId (s : List Char) : Bool :=
  (s.length == 24 && s.all isHexChar) || s.length == 12

/-- JavaScript truthiness of an optional string (absent and empty are falsy). -/
def truthyStr : Option (List Char) → Bool
  | none => false
  | some s => !s.isEmpty

/-- JavaScript truthiness of an optional number (absent and 0 are falsy). -/
def truthyNum : Option Nat → Bool
  | none => false
  | some n => n != 0

/-- Does pat occur at the start of the second list? -/
def startsWithSeq : List Char → List Char → Bool
  | [], _ => true
  | _ :: _, [] => false
  | p :: ps, c :: cs => p == c && startsWithSeq ps cs

/-- Does pat occur contiguously anywhere in the list (String.includes)? -/
def containsSeq (pat : List Char) : List Char → Bool
  | [] => pat.isEmpty
  | c :: cs => startsWithSeq pat (c :: cs) || containsSeq pat cs

/-- Case-insensitive containment: the i-flagged regex test of getBlogs with a
plain-text pattern. -/
def containsCI (pat text : List Char) : Bool :=
  containsSeq (pat.map Char.toLower) (text.map Char.toLower)

/-! ### List handlers -/

/-- Pagination envelope returned by getBlogs. -/
structure Pagination where
  currentPage : Nat
  totalPages : Nat
  totalBlogs : Nat
  hasNext : Bool
  hasPrev : Bool
deriving Repr, DecidableEq

/-- The Mongo filter built by getBlogs: publish gating always, plus the
optional category restriction and the case-insensitive search over title or
content.  An Option parameter is none exactly when the query value is absent
or falsy. -/
def blogFilter (now : Nat) (category : Option Nat) (search : Option (List Char))
    (b : BlogPost) : Bool :=
  decide (b.publishedDate ≤ now) &&
    (match category with
      | none => true
      | some c => b.category == c) &&
    (match search with
      | none => true
      | some s => containsCI s b.title || containsCI s b.content)

/-- getBlogs from controllers/Blog.js: filter, sort, skip/limit slice, count,
and pagination metadata with ceiling division modelling Math.ceil.  The
comparator le stands for the sortBy/sortOrder resolution. -/
def getBlogs (db : List BlogPost) (now : Nat) (page limit : Nat)
    (category : Option Nat) (search : Option (List Char))
    (le : BlogPost → BlogPost → Bool) : List BlogPost × Pagination :=
  let filtered := db.filter (blogFilter now category search)
  let sorted := filtered.mergeSort le
  let slice := (sorted.drop ((page - 1) * limit)).take limit
  let total := filtered.length
  let totalPages := (total + limit - 1) / limit
  (slice,
    { currentPage := page
      totalPages := totalPages
      totalBlogs := total
      hasNext := decide (page < totalPages)
      hasPrev := decide (1 < page) })

/-- Pagination envelope of getBlogsByCategory (no hasNext/hasPrev). -/
structure PaginationBasic where
  currentPage : Nat
  totalPages : Nat
  totalBlogs : Nat
deriving Repr, DecidableEq

/-- getBlogsByCategory from controllers/Blog.js: category and publish-date
filter, fixed sort on publishedDate descending, skip/limit slice. -/
def getBlogsByCategory (db : List BlogPost) (now : Nat) (categoryId : Nat)
    (page limit : Nat) : List BlogPost × PaginationBasic :=
  let filtered :=
    db.filter (fun b => b.category == categoryId && decide (b.publishedDate ≤ now))
  let sorted := filtered.mergeSort (fun a b => decide (b.publishedDate ≤ a.publishedDate))
  let slice := (sorted.drop ((page - 1) * limit)).take limit
  let total := filtered.length
  (slice,
    { currentPage := page
      totalPages := (total + limit - 1) / limit
      totalBlogs := total })

/-! ### Single-blog lookup -/

/-- Outcome of the single-blog handlers: HTTP status and optional payload. -/
structure BlogResponse where
  status : Nat
  data : Option BlogPost
deriving Repr, DecidableEq

/-- getBlogById from controllers/Blog.js: id lookup when the identifier has
valid ObjectId syntax, then slug fallback, else 404. -/
def getBlogById (db : List BlogPost) (ident : List Char) : BlogResponse :=
  let byId := if isValidObjectId ident then db.find? (fun b => b.id == ident) else none
  match byId with
  | some b => { status := 200, data := some b }
  | none =>
    match db.find? (fun b => b.slug == ident) with
    | some b => { status := 200, data := some b }
    | none => { status := 404, data := none }

/-! ### Create -/

/-- The request body and file of the create handler. -/
structure CreateReq where
  title : Option (List Char) := none
  content : Option (List Char) := none
  readTime : Option Nat := none
  category : Option Nat := none
  slug : Option (List Char) := none
  metaTitle : Option (List Char) := none
  metaDescription : Option (List Char) := none
  publishedDate : Option Nat := none
  file : Option (List Nat) := none
  blogImage : Option (List Char) := none

/-- Outcome of createBlog: HTTP status, error message of the upload branch,
the database after the call, whether AssetStore.store was invoked, and the
stored asset url when the upload succeeded. -/
structure CreateOutcome where
  status : Nat
  err : Option (List Char)
  db : List BlogPost
  storeCalled : Bool
  uploaded : Option (List Char)
deriving Repr, DecidableEq

/-- Setters of the Blog schema: trim on the text fields, lowercase on slug. -/
def applySchemaSetters (b : BlogPost) : BlogPost :=
  { b with
    title := trimChars b.title
    slug := (trimChars b.slug).map Char.toLower
    content := trimChars b.content
    blogImage := trimChars b.blogImage
    metaTitle := trimChars b.metaTitle
    metaDescription := trimChars b.metaDescription }

/-- Validators of the Blog schema: required text fields non-empty, maxlength
bounds, readTime between 1 and 60. -/
def schemaValid (b : BlogPost) : Bool :=
  !b.title.isEmpty && decide (b.title.length ≤ 200) &&
  !b.slug.isEmpty && decide (b.slug.length ≤ 220) &&
  !b.content.isEmpty &&
  !b.blogImage.isEmpty &&
  decide (1 ≤ b.readTime) && decide (b.readTime ≤ 60) &&
  !b.metaTitle.isEmpty && decide (b.metaTitle.length ≤ 200) &&
  !b.metaDescription.isEmpty && decide (b.metaDescription.length ≤ 200)

/-- JavaScript or-else on an optional string (slug or title). -/
def strOrElse (a : Option (List Char)) (b : List Char) : List Char :=
  if truthyStr a then a.getD [] else b

/-- Steps of createBlog after the image-handling step: required-field check,
image check, category check, slug uniqueness check, then the save (which runs
the schema setters and validators). -/
def createBlogValidated (categories : List Nat) (now : Nat) (freshId : List Char)
    (db : List BlogPost) (req : CreateReq) (blogImage : Option (List Char))
    (storeCalled : Bool) (uploaded : Option (List Char)) : CreateOutcome :=
  if !(truthyStr req.title && truthyStr req.content && truthyNum req.readTime &&
      req.category.isSome) then
    { status := 400, err := none, db := db, storeCalled := storeCalled, uploaded := uploaded }
  else if !truthyStr blogImage then
    { status := 400, err := none, db := db, storeCalled := storeCalled, uploaded := uploaded }
  else if !(categories.contains (req.category.getD 0)) then
    { status := 404, err := none, db := db, storeCalled := storeCalled, uploaded := uploaded }
  else
    let normalizedSlug := createSlug (strOrElse req.slug (req.title.getD [])) now
    if db.any (fun b => b.slug == normalizedSlug) then
      { status := 409, err := none, db := db, storeCalled := storeCalled, uploaded := uploaded }
    else
      let blog := applySchemaSetters
        { id := freshId
          title := req.title.getD []
          slug := normalizedSlug
          content := req.content.getD []
          blogImage := blogImage.getD []
          readTime := req.readTime.getD 0
          category := req.category.getD 0
          metaTitle := req.metaTitle.getD []
          metaDescription := req.metaDescription.getD []
          publishedDate := if truthyNum req.publishedDate then req.publishedDate.getD 0 else now }
      if schemaValid blog then
        { status := 201, err := none, db := db ++ [blog], storeCalled := storeCalled,
          uploaded := uploaded }
      else
        { status := 500, err := none, db := db, storeCalled := storeCalled,
          uploaded := uploaded }

/-- createBlog from controllers/Blog.js.  categories is the set of existing
category ids; upload is AssetStore.store; freshId is the ObjectId Mongo
assigns on save. -/
def createBlog (categories : List Nat)
    (upload : List Nat → Except (List Char) (List Char))
    (now : Nat) (freshId : List Char) (db : List BlogPost) (req : CreateReq) :
    CreateOutcome :=
  match req.file with
  | some buf =>
    match upload buf with
    | Except.error msg =>
      { status := 500, err := some msg, db := db, storeCalled := true, uploaded := none }
    | Except.ok url =>
      createBlogValidated categories now freshId db req (some url) true (some url)
  | none => createBlogValidated categories now freshId db req req.blogImage false none

/-! ### Update -/

/-- The request body and file of the update handler. -/
structure UpdateReq where
  title : Option (List Char) := none
  content : Option (List Char) := none
  readTime : Option Nat := none
  category : Option Nat := none
  slug : Option (List Char) := none
  publishedDate : Option Nat := none
  file : Option (List Nat) := none
  blogImage : Option (List Char) := none

/-- Outcome of updateBlog. -/
structure UpdateOutcome where
  status : Nat
  db : List BlogPost
  data : Option BlogPost
deriving Repr, DecidableEq

/-- The updateData patch assembled by updateBlog (only truthy fields). -/
structure UpdateData where
  title : Option (List Char) := none
  content : Option (List Char) := none
  blogImage : Option (List Char) := none
  readTime : Option Nat := none
  category : Option Nat := none
  publishedDate : Option Nat := none
  slug : Option (List Char) := none

/-- Assembly of updateData from the request (truthiness-guarded fields). -/
def buildUpdateData (req : UpdateReq) (blogImage : Option (List Char)) : UpdateData :=
  { title := if truthyStr req.title then req.title else none
    content := if truthyStr req.content then req.content else none
    blogImage := if truthyStr blogImage then blogImage else none
    readTime := if truthyNum req.readTime then req.readTime else none
    category := req.category
    publishedDate := if truthyNum req.publishedDate then req.publishedDate else none
    slug := none }

/-- Schema setters applied to the update patch. -/
def applySetters (u : UpdateData) : UpdateData :=
  { u with
    title := u.title.map trimChars
    content := u.content.map trimChars
    blogImage := u.blogImage.map trimChars
    slug := u.slug.map (fun s => (trimChars s).map Char.toLower) }

/-- Schema validators run on the updated paths (runValidators). -/
def updateValid (u : UpdateData) : Bool :=
  (match u.title with
    | none => true
    | some t => !t.isEmpty && decide (t.length ≤ 200)) &&
  (match u.content with
    | none => true
    | some t => !t.isEmpty) &&
  (match u.blogImage with
    | none => true
    | some t => !t.isEmpty) &&
  (match u.readTime with
    | none => true
    | some n => decide (1 ≤ n) && decide (n ≤ 60)) &&
  (match u.slug with
    | none => true
    | some s => !s.isEmpty && decide (s.length ≤ 220))

/-- Application of an update patch to a stored document. -/
def applyUpdate (b : BlogPost) (u : UpdateData) : BlogPost :=
  { b with
    title := u.title.getD b.title
    content := u.content.getD b.content
    blogImage := u.blogImage.getD b.blogImage
    readTime := u.readTime.getD b.readTime
    category := u.category.getD b.category
    publishedDate := u.publishedDate.getD b.publishedDate
    slug := u.slug.getD b.slug }

/-- findByIdAndUpdate with runValidators and the new flag: cast check on the
id, lookup, setters, validators, then the in-place replacement. -/
def finishUpdate (db : List BlogPost) (pid : List Char) (u : UpdateData) : UpdateOutcome :=
  if !isValidObjectId pid then { status := 500, db := db, data := none }
  else
    match db.find? (fun b => b.id == pid) with
    | none => { status := 404, db := db, data := none }
    | some b =>
      let u' := applySetters u
      if updateValid u' then
        let b' := applyUpdate b u'
        { status := 200
          db := db.map (fun x => if x.id == pid then b' else x)
          data := some b' }
      else { status := 500, db := db, data := none }

/-- Steps of updateBlog after the image-handling step: category check, patch
assembly, slug uniqueness check against all other posts, final update. -/
def updateBlogWithImage (categories : List Nat) (now : Nat) (db : List BlogPost)
    (pid : List Char) (req : UpdateReq) (blogImage : Option (List Char)) : UpdateOutcome :=
  if req.category.isSome && !(categories.contains (req.category.getD 0)) then
    { status := 404, db := db, data := none }
  else
    let u0 := buildUpdateData req blogImage
    if truthyStr req.slug then
      if !isValidObjectId pid then
        { status := 500, db := db, data := none }
      else
        let normalizedSlug := createSlug (req.slug.getD []) now
        if db.any (fun b => b.slug == normalizedSlug && !(b.id == pid)) then
          { status := 409, db := db, data := none }
        else
          finishUpdate db pid { u0 with slug := some normalizedSlug }
    else finishUpdate db pid u0

/-- updateBlog from controllers/Blog.js.  An upload failure is not wrapped in
an inner try, so it reaches the outer catch and yields a 500 with no write. -/
def updateBlog (categories : List Nat)
    (upload : List Nat → Except (List Char) (List Char)) (now : Nat)
    (db : List BlogPost) (pid : List Char) (req : UpdateReq) : UpdateOutcome :=
  match req.file with
  | some buf =>
    match upload buf with
    | Except.error _ => { status := 500, db := db, data := none }
    | Except.ok url => updateBlogWithImage categories now db pid req (some url)
  | none => updateBlogWithImage categories now db pid req req.blogImage

/-! ### Delete -/

/-- Outcome of deleteBlog. -/
structure DeleteOutcome where
  status : Nat
  db : List BlogPost
  imageDeleteCalled : Bool
deriving Repr, DecidableEq

/-- deleteBlog from controllers/Blog.js.  deleteImage is
deleteImageFromCloudinary; a rejection there is caught by the surrounding
try/catch, which produces the 500 response before the database delete runs. -/
def deleteBlog (deleteImage : List Char → Except (List Char) Unit)
    (db : List BlogPost) (pid : List Char) : DeleteOutcome :=
  if !isValidObjectId pid then { status := 500, db := db, imageDeleteCalled := false }
  else
    match db.find? (fun b => b.id == pid) with
    | none => { status := 404, db := db, imageDeleteCalled := false }
    | some blog =>
      if containsSeq "cloudinary.com".toList blog.blogImage then
        match deleteImage blog.blogImage with
        | Except.error _ => { status := 500, db := db, imageDeleteCalled := true }
        | Except.ok _ =>
          { status := 200, db := db.eraseP (fun b => b.id == pid), imageDeleteCalled := true }
      else
        { status := 200, db := db.eraseP (fun b => b.id == pid), imageDeleteCalled := false }

/-! ### Claim theorems about the handlers -/

/-- C3: every post returned by getBlogs or by getBlogsByCategory has a
publishedDate at or before the query time, whatever the pagination, category,
search, or sort arguments: a future-dated post is excluded regardless of any
other filter. -/
theorem C3_publish_gating (db : List BlogPost) (now : Nat) (page limit : Nat)
    (category : Option Nat) (search : Option (List Char))
    (le : BlogPost → BlogPost → Bool) (categoryId : Nat) (b : BlogPost) :
    (b ∈ (getBlogs db now page limit category search le).1 → b.publishedDate ≤ now) ∧
    (b ∈ (getBlogsByCategory db now categoryId page limit).1 → b.publishedDate ≤ now) := by
  constructor
  · intro hb
    simp only [getBlogs] at hb
    have h1 : b ∈ (db.filter (blogFilter now category search)).mergeSort le :=
      List.mem_of_mem_drop (List.mem_of_mem_take hb)
    rw [List.mem_mergeSort] at h1
    have h2 := (List.mem_filter.mp h1).2
    simp only [blogFilter, Bool.and_eq_true, decide_eq_true_eq] at h2
    exact h2.1.1
  · intro hb
    simp only [getBlogsByCategory] at hb
    have h1 : b ∈ (db.filter
        (fun x => x.category == categoryId && decide (x.publishedDate ≤ now))).mergeSort
        (fun a b => decide (b.publishedDate ≤ a.publishedDate)) :=
      List.mem_of_mem_drop (List.mem_of_mem_take hb)
    rw [List.mem_mergeSort] at h1
    have h2 := (List.mem_filter.mp h1).2
    simp only [Bool.and_eq_true, decide_eq_true_eq] at h2
    exact h2.2

/-- C7: getBlogById attempts the id lookup exactly for syntactically valid
identifiers, falls back to the slug lookup whenever the id lookup yields
nothing, and returns 404 precisely when both lookups miss. -/
theorem C7_getBlogById_lookup (db : List BlogPost) (ident : List Char) :
    (∀ b, isValidObjectId ident = true →
      db.find? (fun x => x.id == ident) = some b →
      getBlogById db ident = { status := 200, data := some b }) ∧
    (∀ b, (if isValidObjectId ident then db.find? (fun x => x.id == ident) else none) = none →
      db.find? (fun x => x.slug == ident) = some b →
      getBlogById db ident = { status := 200, data := some b }) ∧
    ((getBlogById db ident).status = 404 ↔
      ((if isValidObjectId ident then db.find? (fun x => x.id == ident) else none) = none ∧
        db.find? (fun x => x.slug == ident) = none)) := by
  refine ⟨?_, ?_, ?_⟩
  · intro b hv hf
    simp only [getBlogById, hv, if_true, hf]
  · intro b hbyid hf
    simp only [getBlogById, hbyid, hf]
  · by_cases hv : isValidObjectId ident = true
    · cases hid : db.find? (fun x => x.id == ident) with
      | some b => simp [getBlogById, hv, hid]
      | none =>
        cases hslug : db.find? (fun x => x.slug == ident) with
        | some b => simp [getBlogById, hv, hid, hslug]
        | none => simp [getBlogById, hv, hid, hslug]
    · have hv' : isValidObjectId ident = false := by simpa using hv
      cases hslug : db.find? (fun x => x.slug == ident) with
      | some b => simp [getBlogById, hv', hslug]
      | none => simp [getBlogById, hv', hslug]

/-- The natural-number rendering of Math.ceil: for a positive divisor,
(t + l - 1) / l is the ceiling of the rational t / l. -/
theorem ceilDiv_eq_rat_ceil (t l : Nat) (hl : 1 ≤ l) :
    ((t + l - 1) / l : Nat) = ⌈(t : ℚ) / (l : ℚ)⌉₊ := by
  have hl0 : 0 < l := hl
  rcases Nat.eq_zero_or_pos t with ht | ht
  · subst ht
    rw [Nat.div_eq_of_lt (by omega)]
    simp
  · set n := (t + l - 1) / l with hn
    have hA : n * l ≤ t + l - 1 := Nat.div_mul_le_self (t + l - 1) l
    have hB : t + l - 1 < (n + 1) * l :=
      (Nat.div_lt_iff_lt_mul hl0).mp (Nat.lt_succ_self n)
    have hn1 : 1 ≤ n := (Nat.le_div_iff_mul_le hl0).mpr (by omega)
    have hsucc : (n + 1) * l = n * l + l := by ring
    have hub : t ≤ n * l := by omega
    have hsub : (n - 1) * l = n * l - 1 * l := Nat.sub_mul n 1 l
    have hlb : (n - 1) * l < t := by omega
    have hql : (0 : ℚ) < (l : ℚ) := by exact_mod_cast hl0
    rw [eq_comm, Nat.ceil_eq_iff (by omega : n ≠ 0)]
    constructor
    · rw [lt_div_iff₀ hql]
      exact_mod_cast hlb
    · rw [div_le_iff₀ hql]
      exact_mod_cast hub

/-- C2: the pagination metadata of getBlogs satisfies the specified formulas
(totalPages the rational ceiling of total over limit, totalBlogs the match
count, hasNext and hasPrev the page comparisons) and the returned slice is
the interval from (page-1)*limit to page*limit of the sorted matches; in
particular with 25 matches, limit 10, page 3: 5 posts, totalPages 3, hasNext
false, hasPrev true. -/
theorem C2_getBlogs_pagination (db : List BlogPost) (now : Nat) (page limit : Nat)
    (category : Option Nat) (search : Option (List Char))
    (le : BlogPost → BlogPost → Bool) (hp : 1 ≤ page) (hl : 1 ≤ limit) :
    ((getBlogs db now page limit category search le).2.totalPages =
        ⌈((db.filter (blogFilter now category search)).length : ℚ) / (limit : ℚ)⌉₊ ∧
      (getBlogs db now page limit category search le).2.totalBlogs =
        (db.filter (blogFilter now category search)).length ∧
      (getBlogs db now page limit category search le).2.hasNext =
        decide ((getBlogs db now page limit category search le).2.currentPage <
          (getBlogs db now page limit category search le).2.totalPages) ∧
      (getBlogs db now page limit category search le).2.hasPrev =
        decide (1 < (getBlogs db now page limit category search le).2.currentPage) ∧
      (getBlogs db now page limit category search le).1 =
        (((db.filter (blogFilter now category search)).mergeSort le).take
          (page * limit)).drop ((page - 1) * limit)) ∧
    ((db.filter (blogFilter now category search)).length = 25 → page = 3 → limit = 10 →
      ((getBlogs db now page limit category search le).1.length = 5 ∧
        (getBlogs db now page limit category search le).2.totalPages = 3 ∧
        (getBlogs db now page limit category search le).2.hasNext = false ∧
        (getBlogs db now page limit category search le).2.hasPrev = true)) := by
  have hmul : (page - 1) * limit + limit = page * limit := by
    have h1 : (page - 1) * limit = page * limit - 1 * limit := Nat.sub_mul page 1 limit
    have h2 : limit ≤ page * limit := by
      calc limit = 1 * limit := (one_mul limit).symm
        _ ≤ page * limit := Nat.mul_le_mul_right limit hp
    omega
  constructor
  · refine ⟨?_, rfl, rfl, rfl, ?_⟩
    · exact ceilDiv_eq_rat_ceil _ limit hl
    · show (((db.filter (blogFilter now category search)).mergeSort le).drop
        ((page - 1) * limit)).take limit = _
      rw [List.take_drop, hmul]
  · intro h25 hpage hlimit
    subst hpage hlimit
    have hlen : ((db.filter (blogFilter now category search)).mergeSort le).length = 25 := by
      rw [List.length_mergeSort]
      exact h25
    refine ⟨?_, ?_, ?_, ?_⟩
    · show ((((db.filter (blogFilter now category search)).mergeSort le).drop
        ((3 - 1) * 10)).take 10).length = 5
      rw [List.length_take, List.length_drop, hlen]
      decide
    · show ((db.filter (blogFilter now category search)).length + 10 - 1) / 10 = 3
      rw [h25]
    · show decide (3 < ((db.filter (blogFilter now category search)).length + 10 - 1) / 10)
        = false
      rw [h25]
      decide
    · rfl

/-- A concrete post used by the witnesses; the flag toggles the slug. -/
def samplePost (i : Nat) : BlogPost :=
  { id := 'a' :: 'a' :: 'a' :: 'a' :: 'a' :: 'a' :: 'a' :: 'a' :: 'a' :: 'a' :: 'a' :: 'a' ::
      'a' :: 'a' :: 'a' :: 'a' :: 'a' :: 'a' :: 'a' :: 'a' :: 'a' :: 'a' :: natToString i
    title := 't' :: natToString i
    slug := 's' :: natToString i
    content := ['c']
    blogImage := ['u']
    readTime := 5
    category := 1
    metaTitle := ['m']
    metaDescription := ['d']
    publishedDate := 0 }

/-- A database of 25 posts all published at time 0. -/
def sampleDb : List BlogPost := (List.range 25).map samplePost

/-- Witness for C2: the 25-post database with limit 10, page 3. -/
theorem C2_witness :
    (getBlogs sampleDb 0 3 10 none none (fun _ _ => true)).1.length = 5 ∧
      (getBlogs sampleDb 0 3 10 none none (fun _ _ => true)).2.totalPages = 3 ∧
      (getBlogs sampleDb 0 3 10 none none (fun _ _ => true)).2.hasNext = false ∧
      (getBlogs sampleDb 0 3 10 none none (fun _ _ => true)).2.hasPrev = true :=
  (C2_getBlogs_pagination sampleDb 0 3 10 none none (fun _ _ => true)
    (by decide) (by decide)).2 (by decide) rfl rfl

/-- Helper: a create request that reaches the slug check and collides with an
existing slug yields the 409 outcome with the database unchanged. -/
theorem createBlogValidated_conflict (categories : List Nat) (now : Nat)
    (freshId : List Char) (db : List BlogPost) (req : CreateReq)
    (blogImage : Option (List Char)) (sc : Bool) (up : Option (List Char))
    (hfields : (truthyStr req.title && truthyStr req.content && truthyNum req.readTime &&
      req.category.isSome) = true)
    (himg : truthyStr blogImage = true)
    (hcat : categories.contains (req.category.getD 0) = true)
    (hconf : ∃ b ∈ db, b.slug = createSlug (strOrElse req.slug (req.title.getD [])) now) :
    createBlogValidated categories now freshId db req blogImage sc up =
      { status := 409, err := none, db := db, storeCalled := sc, uploaded := up } := by
  have hany : (db.any fun b =>
      b.slug == createSlug (strOrElse req.slug (req.title.getD [])) now) = true := by
    rw [List.any_eq_true]
    obtain ⟨b, hb, he⟩ := hconf
    exact ⟨b, hb, by simp [he]⟩
  simp only [createBlogValidated, hfields, himg, hcat, hany, Bool.not_true,
    Bool.false_eq_true, if_false, if_true]

/-- C4: a create request that passes the upload, required-field, image and
category steps and whose computed slug (normalize of the explicit slug if
supplied, else of the title) equals the slug of an existing post fails with
409 and writes no new post. -/
theorem C4_createBlog_slug_conflict (categories : List Nat)
    (upload : List Nat → Except (List Char) (List Char)) (now : Nat)
    (freshId : List Char) (db : List BlogPost) (req : CreateReq)
    (himg : match req.file with
      | some buf => ∃ url, upload buf = Except.ok url ∧ url.isEmpty = false
      | none => truthyStr req.blogImage = true)
    (hfields : (truthyStr req.title && truthyStr req.content && truthyNum req.readTime &&
      req.category.isSome) = true)
    (hcat : categories.contains (req.category.getD 0) = true)
    (hconf : ∃ b ∈ db, b.slug = createSlug (strOrElse req.slug (req.title.getD [])) now) :
    (createBlog categories upload now freshId db req).status = 409 ∧
      (createBlog categories upload now freshId db req).db = db := by
  cases hf : req.file with
  | some buf =>
    rw [hf] at himg
    obtain ⟨url, hup, hne⟩ := himg
    have h := createBlogValidated_conflict categories now freshId db req (some url) true
      (some url) hfields (by simp [truthyStr, hne]) hcat hconf
    simp only [createBlog, hf, hup, h]
    exact ⟨trivial, trivial⟩
  | none =>
    rw [hf] at himg
    have h := createBlogValidated_conflict categories now freshId db req req.blogImage false
      none hfields himg hcat hconf
    simp only [createBlog, hf, h]
    exact ⟨trivial, trivial⟩

/-- Witness for C4: creating a post titled Hello, World! when a post with slug
hello-world already exists. -/
theorem C4_witness :
    (createBlog [1] (fun _ => Except.error []) 0 ['f']
      [{ samplePost 0 with slug := "hello-world".toList }]
      { title := some "Hello, World!".toList
        content := some ['c']
        readTime := some 5
        category := some 1
        blogImage := some ['u'] }).status = 409 ∧
    (createBlog [1] (fun _ => Except.error []) 0 ['f']
      [{ samplePost 0 with slug := "hello-world".toList }]
      { title := some "Hello, World!".toList
        content := some ['c']
        readTime := some 5
        category := some 1
        blogImage := some ['u'] }).db =
      [{ samplePost 0 with slug := "hello-world".toList }] :=
  C4_createBlog_slug_conflict [1] (fun _ => Except.error []) 0 ['f'] _ _
    (by decide) (by decide) (by decide)
    ⟨{ samplePost 0 with slug := "hello-world".toList }, by decide, by decide⟩

/-- C5: when the request carries raw image bytes and the upload fails, create
returns status 500 carrying the underlying message, and no database record is
written. -/
theorem C5_createBlog_upload_failure (categories : List Nat)
    (upload : List Nat → Except (List Char) (List Char)) (now : Nat)
    (freshId : List Char) (db : List BlogPost) (req : CreateReq)
    (buf : List Nat) (msg : List Char) (hf : req.file = some buf)
    (hup : upload buf = Except.error msg) :
    createBlog categories upload now freshId db req =
      { status := 500, err := some msg, db := db, storeCalled := true, uploaded := none } := by
  simp only [createBlog, hf, hup]

/-- Witness for C5: a failing upload on an otherwise complete request. -/
theorem C5_witness :
    createBlog [1] (fun _ => Except.error "boom".toList) 0 ['f'] [samplePost 0]
      { title := some ['t'], content := some ['c'], readTime := some 5,
        category := some 1, file := some [7] } =
      { status := 500, err := some "boom".toList, db := [samplePost 0],
        storeCalled := true, uploaded := none } :=
  C5_createBlog_upload_failure [1] (fun _ => Except.error "boom".toList) 0 ['f']
    [samplePost 0] _ [7] "boom".toList rfl rfl

/-- C10: when raw image bytes are present and a required field is missing, the
asset upload is still invoked before the required-field check; the request
then fails with 400, the database is unchanged, and the uploaded asset
remains stored. -/
theorem C10_createBlog_upload_before_validation (categories : List Nat)
    (upload : List Nat → Except (List Char) (List Char)) (now : Nat)
    (freshId : List Char) (db : List BlogPost) (req : CreateReq)
    (buf : List Nat) (url : List Char) (hf : req.file = some buf)
    (hup : upload buf = Except.ok url)
    (hmiss : (truthyStr req.title && truthyStr req.content && truthyNum req.readTime &&
      req.category.isSome) = false) :
    createBlog categories upload now freshId db req =
      { status := 400, err := none, db := db, storeCalled := true, uploaded := some url } := by
  simp only [createBlog, hf, hup, createBlogValidated, hmiss, Bool.not_false, if_true]

/-- Witness for C10: image bytes with a missing title. -/
theorem C10_witness :
    createBlog [1] (fun _ => Except.ok "https://img".toList) 0 ['f'] [samplePost 0]
      { content := some ['c'], readTime := some 5, category := some 1,
        file := some [7] } =
      { status := 400, err := none, db := [samplePost 0], storeCalled := true,
        uploaded := some "https://img".toList } :=
  C10_createBlog_upload_before_validation [1] (fun _ => Except.ok "https://img".toList)
    0 ['f'] [samplePost 0] _ [7] "https://img".toList rfl rfl (by decide)

/-- Environment for the delete analysis: the remote image deletion always
fails. -/
def failingDeleteImage : List Char → Except (List Char) Unit :=
  fun _ => Except.error "cloudinary failure".toList

/-- A post whose cover image is hosted on Cloudinary; its id is a valid
24-character hexadecimal ObjectId string. -/
def cloudinaryPost : BlogPost :=
  { id := "0123456789abcdef01234567".toList
    title := ['t']
    slug := ['t']
    content := ['c']
    blogImage := "https://res.cloudinary.com/demo/image/upload/x.jpg".toList
    readTime := 5
    category := 1
    metaTitle := ['m']
    metaDescription := ['d']
    publishedDate := 0 }

/-- C6 counterexample: deleting an existing post with a Cloudinary-hosted
image while the remote deletion fails returns 500 and leaves the post in the
database — the database delete does not execute, contradicting the claim. -/
theorem C6_counterexample :
    (deleteBlog failingDeleteImage [cloudinaryPost] cloudinaryPost.id).status = 500 ∧
      cloudinaryPost ∈ (deleteBlog failingDeleteImage [cloudinaryPost] cloudinaryPost.id).db := by
  decide

/-- C6 amended: when the looked-up post has a Cloudinary-hosted image and the
remote deletion fails, the error propagates to the catch handler: the
response is 500 and the database is unchanged, so the post is not deleted. -/
theorem C6_delete_image_failure_keeps_post
    (deleteImage : List Char → Except (List Char) Unit) (db : List BlogPost)
    (pid : List Char) (blog : BlogPost) (msg : List Char)
    (hv : isValidObjectId pid = true)
    (hfind : db.find? (fun b => b.id == pid) = some blog)
    (hcloud : containsSeq "cloudinary.com".toList blog.blogImage = true)
    (hdel : deleteImage blog.blogImage = Except.error msg) :
    deleteBlog deleteImage db pid =
      { status := 500, db := db, imageDeleteCalled := true } := by
  simp only [deleteBlog, hv, Bool.not_true, Bool.false_eq_true, if_false, hfind, hcloud,
    if_true, hdel]

/-- Witness for the amended C6 statement. -/
theorem C6_witness :
    deleteBlog failingDeleteImage [cloudinaryPost] cloudinaryPost.id =
      { status := 500, db := [cloudinaryPost], imageDeleteCalled := true } :=
  C6_delete_image_failure_keeps_post failingDeleteImage [cloudinaryPost]
    cloudinaryPost.id cloudinaryPost "cloudinary failure".toList
    (by decide) (by decide) (by decide) rfl

/-- The output of createSlug consists only of slug characters. -/
theorem createSlug_all_good (value : List Char) (now : Nat) :
    (createSlug value now).all goodSlugChar = true := by
  simp only [createSlug]
  by_cases hp : (slugPipeline value).isEmpty = true
  · rw [if_pos hp]
    exact slugFallback_all_good now
  · rw [if_neg hp]
    exact slugPipeline_all_good value

/-- The schema setters fix the output of createSlug: it has no surrounding
whitespace and is already lowercase. -/
theorem createSlug_setters_fix (value : List Char) (now : Nat) :
    (trimChars (createSlug value now)).map Char.toLower = createSlug value now := by
  rw [trimChars_eq_self (createSlug_all_good value now)]
  exact map_toLower_eq_self (createSlug_all_good value now)

/-- C8: on update, a supplied slug is normalized and checked for uniqueness
only against posts other than the one being updated: re-submitting the
target's own current (already-normalized) slug yields 200, while a normalized
slug equal to a different post's slug yields 409 with no write. -/
theorem C8_updateBlog_slug_uniqueness (categories : List Nat)
    (upload : List Nat → Except (List Char) (List Char)) (now : Nat)
    (db : List BlogPost) (pid : List Char) (req : UpdateReq) (target : BlogPost) :
    (req.file = none → req.category = none → truthyStr req.slug = true →
      req.title = none → req.content = none → req.readTime = none →
      req.publishedDate = none → req.blogImage = none →
      isValidObjectId pid = true →
      db.find? (fun b => b.id == pid) = some target →
      createSlug (req.slug.getD []) now = target.slug →
      (∀ b ∈ db, b.slug = target.slug → b.id = pid) →
      target.slug.isEmpty = false → target.slug.length ≤ 220 →
      (updateBlog categories upload now db pid req).status = 200) ∧
    (req.file = none → req.category = none → truthyStr req.slug = true →
      isValidObjectId pid = true →
      (∃ b ∈ db, b.slug = createSlug (req.slug.getD []) now ∧ b.id ≠ pid) →
      (updateBlog categories upload now db pid req).status = 409 ∧
        (updateBlog categories upload now db pid req).db = db) := by
  constructor
  · intro hfile hcatnone hslug hTitle hContent hRead hPub hImg hv hfind hns huniq hne hlen
    have hanyf : (db.any fun b =>
        b.slug == createSlug (req.slug.getD []) now && !(b.id == pid)) = false := by
      rw [List.any_eq_false]
      intro b hb hcontra
      rw [Bool.and_eq_true] at hcontra
      have h1 : b.slug = target.slug := by
        have := hcontra.1
        rw [hns] at this
        simpa using this
      have h2 := huniq b hb h1
      rw [h2] at hcontra
      simp at hcontra
    have hu0 : buildUpdateData req none =
        { title := none, content := none, blogImage := none, readTime := none,
          category := none, publishedDate := none, slug := none } := by
      simp [buildUpdateData, hTitle, hContent, hRead, hPub, hcatnone, truthyStr, truthyNum]
    simp only [updateBlog, hfile, hImg, updateBlogWithImage, hcatnone, Option.isSome_none,
      Bool.false_and, Bool.false_eq_true, if_false, hslug, if_true, hv, Bool.not_true,
      hanyf, hu0]
    simp only [finishUpdate, hv, Bool.not_true, Bool.false_eq_true, if_false, hfind]
    have hsetters : applySetters
        { title := none, content := none, blogImage := none, readTime := none,
          category := none, publishedDate := none,
          slug := some (createSlug (req.slug.getD []) now) } =
        { title := none, content := none, blogImage := none, readTime := none,
          category := none, publishedDate := none,
          slug := some (createSlug (req.slug.getD []) now) } := by
      simp [applySetters, createSlug_setters_fix]
    rw [hsetters]
    have hvalid : updateValid
        { title := none, content := none, blogImage := none, readTime := none,
          category := none, publishedDate := none,
          slug := some (createSlug (req.slug.getD []) now) } = true := by
      simp [updateValid, hns, hne, hlen]
    rw [if_pos hvalid]
  · intro hfile hcatnone hslug hv hconf
    obtain ⟨b, hb, hbslug, hbid⟩ := hconf
    have hany : (db.any fun x =>
        x.slug == createSlug (req.slug.getD []) now && !(x.id == pid)) = true := by
      rw [List.any_eq_true]
      refine ⟨b, hb, ?_⟩
      rw [Bool.and_eq_true]
      constructor
      · simp [hbslug]
      · simp [hbid]
    cases hfi : req.file with
    | some buf => rw [hfi] at hfile; exact absurd hfile (by simp)
    | none =>
      simp only [updateBlog, hfi, updateBlogWithImage, hcatnone, Option.isSome_none,
        Bool.false_and, Bool.false_eq_true, if_false, hslug, if_true, hv, Bool.not_true,
        hany]
      exact ⟨trivial, trivial⟩

/-- Target post of the update witness: valid hexadecimal id and a normalized
slug. -/
def updTarget : BlogPost :=
  { samplePost 0 with id := "aaaaaaaaaaaaaaaaaaaaaaaa".toList, slug := "hello-world".toList }

/-- A second stored post owning the slug other-post. -/
def updOther : BlogPost :=
  { samplePost 1 with id := "bbbbbbbbbbbbbbbbbbbbbbbb".toList, slug := "other-post".toList }

/-- Witness for C8: re-submitting the target's own slug succeeds with 200,
while submitting the other post's slug yields 409 and no write. -/
theorem C8_witness :
    (updateBlog [] (fun _ => Except.error []) 0 [updTarget, updOther] updTarget.id
      { slug := some "Hello, World!".toList }).status = 200 ∧
    (updateBlog [] (fun _ => Except.error []) 0 [updTarget, updOther] updTarget.id
      { slug := some "Other Post".toList }).status = 409 := by
  constructor
  · exact (C8_updateBlog_slug_uniqueness [] (fun _ => Except.error []) 0
      [updTarget, updOther] updTarget.id { slug := some "Hello, World!".toList }
      updTarget).1 rfl rfl (by decide) rfl rfl rfl rfl rfl (by decide) (by decide)
      (by decide) (by decide) (by decide) (by decide)
  · exact ((C8_updateBlog_slug_uniqueness [] (fun _ => Except.error []) 0
      [updTarget, updOther] updTarget.id { slug := some "Other Post".toList }
      updTarget).2 rfl rfl (by decide) (by decide)
      ⟨updOther, by decide, by decide, by decide⟩).1

end TourTravels
